import Mathlib

/-!
Verification of the `ha_live_config` Home Assistant custom integration
(`custom_components/ha_live_config/__init__.py`).

The integration keeps one JSON-like document
`{"schema_version": ..., "gemini_api_key": ..., "profiles": [...]}` in
`hass.data[DOMAIN]["data"]` and persists it with `store.async_save` (the
`_save` helper).  Five service handlers mutate or read this document:
`handle_get_config`, `handle_set_gemini_key`, `handle_upsert_profile`,
`handle_delete_profile` and `handle_check_profile_name`.

The embedding below is a direct translation of those handlers into pure
functions over an explicit state.  Each handler returns, besides its
service response, the state of the in-memory document after the call and
a flag recording whether `_save` (persistence to storage) was invoked.
Environment inputs that the Python code obtains from the runtime are
explicit parameters:

* `newId`  models `str(uuid.uuid4())` — the fresh id generated for a new
  profile.  A version-4 UUID rendered by `str` is always a non-empty
  36-character string; theorems that need this fact take `newId ≠ ""` as
  a hypothesis.
* `now`    models `dt_util.utcnow().isoformat()`.
* `modifiedBy` models the value computed from `call.context.user_id` and
  `hass.auth.async_get_user`: the calling user's name, or `none` when
  there is no user context or the user lookup returns no user.
-/

/-- Modelled from the spec: the constant `PROFILE_SCHEMA_VERSION` is
imported from `custom_components/ha_live_config/const.py`, which is not
part of the sources at hand.  Its concrete value never matters to any
claim — the claims only compare the stamped field against this constant —
so it is fixed to `1` here. -/
def PROFILE_SCHEMA_VERSION : Nat := 1

/-- A stored profile.  In the Python code a profile is a JSON dict; the
handlers read its `"id"` and `"name"` keys (as strings) and write the
audit keys `"last_modified"`, `"schema_version"` and `"modified_by"`.
All remaining user-payload keys are carried around untouched; they are
modelled by the `rest` field. -/
structure Profile where
  id : String
  name : String
  last_modified : String
  schema_version : Nat
  modified_by : Option String
  rest : List (String × String)
deriving DecidableEq, Repr

/-- The profile dict passed to `upsert_profile` in `call.data["profile"]`.
The `"id"` and `"name"` keys may be absent or `None` (both read back as
`None` by `dict.get`), which `none` models; the audit keys are overwritten
by the handler, so only the payload (`rest`) matters besides `id` and
`name`. -/
structure ProfileInput where
  id : Option String
  name : Option String
  rest : List (String × String)
deriving DecidableEq, Repr

/-- The stored document: `hass.data[DOMAIN]["data"]`, holding
`"gemini_api_key"` (a string or `None`) and `"profiles"` (a list). -/
structure AppData where
  gemini_api_key : Option String
  profiles : List Profile
deriving DecidableEq, Repr

/-- The two `ValueError`s `handle_upsert_profile` can raise.
`missingName` is `ValueError("Profile must have a name")`;
`nameExists n` is `ValueError(f"A profile named '{n}' already exists")`. -/
inductive SvcError where
  | missingName
  | nameExists (name : String)
deriving DecidableEq, Repr

/-- Python truthiness test `not v` for a value that is a string or `None`:
true exactly for `None` and the empty string.  Used for
`not profile.get("name")` and `not profile_id`. -/
def falsyStr : Option String → Bool
  | none => true
  | some s => s == ""

/-- The Python comparison `p["id"] != x` where `p["id"]` is a string and
`x` is a string or `None`: a string never equals `None`, so the result is
`True` whenever `x` is `None`. -/
def idDiffers (pid : String) (x : Option String) : Bool :=
  match x with
  | none => true
  | some s => pid != s

/-- Python's `str.lower()` as applied to profile names: lower-case every
character.  (Extensionally this is `String.toLower`, i.e.
`String.map Char.toLower`; it is spelled out over the character list so
that the kernel can evaluate it on the concrete inputs of the witnesses
below.) -/
def pyLower (s : String) : String := ⟨s.data.map Char.toLower⟩

/-- The collision predicate of `handle_upsert_profile` (and, textually
identical, of `handle_check_profile_name`):
`p["name"].lower() == name.lower() and p["id"] != excludedId`. -/
def collisionPred (name : String) (excludedId : Option String) (p : Profile) : Bool :=
  pyLower p.name == pyLower name && idDiffers p.id excludedId

/-- Result of one `upsert_profile` call: the service response (or the
raised error), the document afterwards, and whether `_save` ran. -/
structure UpsertOutcome where
  result : Except SvcError String
  state : AppData
  saved : Bool
deriving Repr

/-- The id the upserted profile ends up with: "Generate ID if new
profile" — `if not profile_id: profile["id"] = str(uuid.uuid4())`.
`newId` stands for `str(uuid.uuid4())`. -/
def resolvedId (input : ProfileInput) (newId : String) : String :=
  if falsyStr input.id then newId else input.id.getD ""

/-- The profile dict as it stands after `handle_upsert_profile` has
resolved the id and stamped the metadata, right before the "Upsert
logic" writes it into the list. -/
def storedProfile (input : ProfileInput) (newId now : String)
    (modifiedBy : Option String) : Profile :=
  { id := resolvedId input newId
    name := input.name.getD ""
    last_modified := now
    schema_version := PROFILE_SCHEMA_VERSION
    modified_by := modifiedBy
    rest := input.rest }

/-- `handle_upsert_profile` (`__init__.py`, the `upsert_profile` service).
Translation notes: `next((p for p in profiles if ...), None)` is
`List.find?`; `next((i for i, p in enumerate(profiles) if ...), None)` is
`List.findIdx?`; `profiles[existing_idx] = profile` is `List.set`;
`profiles.append(profile)` is `· ++ [profile]`.  The error branches
return before any mutation of the document, exactly as the `raise`
statements precede every write in the Python code. -/
def handle_upsert_profile (st : AppData) (input : ProfileInput)
    (newId : String) (now : String) (modifiedBy : Option String) : UpsertOutcome :=
  -- "Validate required fields"
  if falsyStr input.name then
    { result := .error .missingName, state := st, saved := false }
  else
    -- "Check for name collision (different ID, same name - case insensitive)"
    match st.profiles.find? (collisionPred (input.name.getD "") input.id) with
    | some _ =>
      { result := .error (.nameExists (input.name.getD "")), state := st, saved := false }
    | none =>
      -- "Generate ID if new profile"; "Add metadata"; then the "Upsert logic":
      -- replace the first profile with the same (resolved) id, else append.
      { result := .ok (resolvedId input newId)
        state :=
          { st with
            profiles :=
              match st.profiles.findIdx? (fun p => p.id == resolvedId input newId) with
              | some i => st.profiles.set i (storedProfile input newId now modifiedBy)
              | none => st.profiles ++ [storedProfile input newId now modifiedBy] }
        saved := true }

/-- `handle_delete_profile`: filters out profiles whose `"id"` equals
`profile_id` and saves only when the list shrank.  Returns the document
afterwards and the saved flag. -/
def handle_delete_profile (st : AppData) (profile_id : Option String) : AppData × Bool :=
  let newProfiles := st.profiles.filter (fun p => idDiffers p.id profile_id)
  ({ st with profiles := newProfiles },
    decide (newProfiles.length < st.profiles.length))

/-- `handle_set_gemini_key`: stores the key, mapping the empty string to
`None` ("Allow empty string to clear the key"), and always saves.  The
`AIza` warning only logs and has no effect on the document. -/
def handle_set_gemini_key (st : AppData) (api_key : Option String) : AppData × Bool :=
  let key := if api_key == some "" then none else api_key
  ({ st with gemini_api_key := key }, true)

/-- `handle_get_config`: returns the key and the profiles list. -/
def handle_get_config (st : AppData) : Option String × List Profile :=
  (st.gemini_api_key, st.profiles)

/-- `handle_check_profile_name`: `name` defaults to `""` when absent
(`call.data.get("name", "")`), `exclude_id` to `None`.  Returns the
`available` field of the response. -/
def handle_check_profile_name (st : AppData) (name : String) (exclude_id : Option String) : Bool :=
  !(st.profiles.any (collisionPred name exclude_id))

/-- The document `async_setup` builds when storage is empty. -/
def initialData : AppData :=
  { gemini_api_key := none, profiles := [] }

/-- States of the document reachable from the initial empty document by
the three mutating services.  A failed upsert contributes the (unchanged)
`state` component of its outcome, so failed calls are part of every
sequence.  The side condition `newId ≠ ""` records that
`str(uuid.uuid4())` is never the empty string. -/
inductive Reachable : AppData → Prop where
  | init : Reachable initialData
  | upsert {st : AppData} (h : Reachable st) (input : ProfileInput)
      (newId now : String) (modifiedBy : Option String) (hid : newId ≠ "") :
      Reachable (handle_upsert_profile st input newId now modifiedBy).state
  | delete {st : AppData} (h : Reachable st) (profile_id : Option String) :
      Reachable (handle_delete_profile st profile_id).1
  | setKey {st : AppData} (h : Reachable st) (api_key : Option String) :
      Reachable (handle_set_gemini_key st api_key).1

/-- No two profiles of the list have case-insensitively equal names. -/
def NamesUnique (ps : List Profile) : Prop :=
  ps.Pairwise (fun p q => pyLower p.name ≠ pyLower q.name)

/-- No two profiles of the list share an id. -/
def IdsUnique (ps : List Profile) : Prop :=
  ps.Pairwise (fun p q => p.id ≠ q.id)

/-- Every stored profile has a non-empty id. -/
def NoEmptyId (ps : List Profile) : Prop :=
  ∀ p ∈ ps, p.id ≠ ""

/-- The combined invariant maintained by the three mutating services. -/
def ProfilesOK (ps : List Profile) : Prop :=
  NamesUnique ps ∧ IdsUnique ps ∧ NoEmptyId ps

/-! ## Unfolding lemmas for `handle_upsert_profile` -/

/-- On a falsy name the handler raises `missingName` before touching
anything. -/
theorem upsert_eq_of_missing {st : AppData} {input : ProfileInput}
    {newId now : String} {u : Option String}
    (h : falsyStr input.name = true) :
    handle_upsert_profile st input newId now u =
      { result := .error .missingName, state := st, saved := false } := by
  unfold handle_upsert_profile
  simp [h]

/-- On a name collision the handler raises `nameExists` before touching
anything. -/
theorem upsert_eq_of_collision {st : AppData} {input : ProfileInput}
    {newId now : String} {u : Option String} {q : Profile}
    (h : falsyStr input.name = false)
    (hf : st.profiles.find? (collisionPred (input.name.getD "") input.id) = some q) :
    handle_upsert_profile st input newId now u =
      { result := .error (.nameExists (input.name.getD "")), state := st, saved := false } := by
  unfold handle_upsert_profile
  simp [h, hf]

/-- Successful upsert, update case: the first profile with the resolved
id is overwritten in place. -/
theorem upsert_eq_of_ok_set {st : AppData} {input : ProfileInput}
    {newId now : String} {u : Option String} {i : Nat}
    (h : falsyStr input.name = false)
    (hf : st.profiles.find? (collisionPred (input.name.getD "") input.id) = none)
    (hi : st.profiles.findIdx? (fun p => p.id == resolvedId input newId) = some i) :
    handle_upsert_profile st input newId now u =
      { result := .ok (resolvedId input newId)
        state := { st with profiles := st.profiles.set i (storedProfile input newId now u) }
        saved := true } := by
  unfold handle_upsert_profile
  simp [h, hf, hi]

/-- Successful upsert, create case: the stored profile is appended. -/
theorem upsert_eq_of_ok_append {st : AppData} {input : ProfileInput}
    {newId now : String} {u : Option String}
    (h : falsyStr input.name = false)
    (hf : st.profiles.find? (collisionPred (input.name.getD "") input.id) = none)
    (hi : st.profiles.findIdx? (fun p => p.id == resolvedId input newId) = none) :
    handle_upsert_profile st input newId now u =
      { result := .ok (resolvedId input newId)
        state := { st with profiles := st.profiles ++ [storedProfile input newId now u] }
        saved := true } := by
  unfold handle_upsert_profile
  simp [h, hf, hi]

/-- A successful call always returns the resolved id, whichever branch
the "Upsert logic" takes. -/
theorem upsert_result_of_ok {st : AppData} {input : ProfileInput}
    {newId now : String} {u : Option String}
    (h : falsyStr input.name = false)
    (hf : st.profiles.find? (collisionPred (input.name.getD "") input.id) = none) :
    (handle_upsert_profile st input newId now u).result = .ok (resolvedId input newId) := by
  unfold handle_upsert_profile
  simp [h, hf]

/-- Inversion: a successful result pins down the branch conditions and
the returned id. -/
theorem upsert_ok_inv {st : AppData} {input : ProfileInput}
    {newId now : String} {u : Option String} {r : String}
    (h : (handle_upsert_profile st input newId now u).result = .ok r) :
    falsyStr input.name = false ∧
    st.profiles.find? (collisionPred (input.name.getD "") input.id) = none ∧
    r = resolvedId input newId := by
  cases hb : falsyStr input.name with
  | true => rw [upsert_eq_of_missing hb] at h; exact absurd h (by simp)
  | false =>
    cases hf : st.profiles.find? (collisionPred (input.name.getD "") input.id) with
    | some q => rw [upsert_eq_of_collision hb hf] at h; exact absurd h (by simp)
    | none =>
      have hr := @upsert_result_of_ok st input newId now u hb hf
      rw [hr] at h
      exact ⟨rfl, rfl, by injection h.symm⟩

/-! ## Basic facts about the small helpers -/

/-- A non-falsy optional string is `some s` with `s ≠ ""`. -/
theorem falsyStr_false_iff {x : Option String} :
    falsyStr x = false ↔ ∃ s, x = some s ∧ s ≠ "" := by
  cases x with
  | none => simp [falsyStr]
  | some s =>
    have hs : falsyStr (some s) = (s == "") := rfl
    rw [hs, beq_eq_false_iff_ne]
    constructor
    · intro h
      exact ⟨s, rfl, h⟩
    · rintro ⟨t, ht, hne⟩
      injection ht with ht'
      rw [ht']
      exact hne

/-- `idDiffers` is `false` exactly for `some` of the same string. -/
theorem idDiffers_eq_false_iff {pid : String} {x : Option String} :
    idDiffers pid x = false ↔ x = some pid := by
  cases x with
  | none => simp [idDiffers]
  | some s =>
    have hs : idDiffers pid (some s) = (pid != s) := rfl
    rw [hs, bne_eq_false_iff_eq]
    constructor
    · intro h
      rw [h]
    · intro h
      injection h with h'
      exact h'.symm

/-- The collision predicate, spelled out as a proposition. -/
theorem collisionPred_eq_true_iff {name : String} {x : Option String} {p : Profile} :
    collisionPred name x p = true ↔
      pyLower p.name = pyLower name ∧ idDiffers p.id x = true := by
  simp [collisionPred]

/-- The resolved id of a successful upsert is never the empty string,
provided the generated uuid is not. -/
theorem resolvedId_ne_empty {input : ProfileInput} {newId : String}
    (hid : newId ≠ "") : resolvedId input newId ≠ "" := by
  unfold resolvedId
  cases hb : falsyStr input.id with
  | true => simpa using hid
  | false =>
    obtain ⟨s, hs, hne⟩ := falsyStr_false_iff.mp hb
    simpa [hs] using hne

/-- After a clean collision check, any stored profile sharing the new
name (case-insensitively) must carry the resolved id — this is the heart
of the uniqueness argument.  Uses that stored ids are non-empty. -/
theorem collision_clear_name_forces_id {ps : List Profile} {input : ProfileInput}
    {newId : String}
    (hf : ps.find? (collisionPred (input.name.getD "") input.id) = none)
    (hne : NoEmptyId ps) :
    ∀ p ∈ ps, pyLower p.name = pyLower (input.name.getD "") →
      p.id = resolvedId input newId := by
  intro p hp hname
  have hall := List.find?_eq_none.mp hf p hp
  have hdif : idDiffers p.id input.id = false := by
    cases hd : idDiffers p.id input.id with
    | false => rfl
    | true => exact absurd (collisionPred_eq_true_iff.mpr ⟨hname, hd⟩) hall
  have hsome : input.id = some p.id := idDiffers_eq_false_iff.mp hdif
  have hfb : falsyStr input.id = false := by
    rw [hsome]
    have hs : falsyStr (some p.id) = (p.id == "") := rfl
    rw [hs, beq_eq_false_iff_ne]
    exact hne p hp
  unfold resolvedId
  rw [hfb]
  simp [hsome]

/-! ## List-level helper lemmas -/

/-- Extract the bound and the predicate from a successful `findIdx?`. -/
theorem findIdx?_some_spec {α : Type} {p : α → Bool} {l : List α} {i : Nat}
    (h : l.findIdx? p = some i) :
    ∃ hi : i < l.length, p (l.get ⟨i, hi⟩) = true := by
  obtain ⟨hlt, hfi⟩ := List.findIdx?_eq_some_iff_findIdx_eq.mp h
  refine ⟨hlt, ?_⟩
  have hw : l.findIdx p < l.length := by rw [hfi]; exact hlt
  have hg := @List.findIdx_getElem _ p l hw
  simpa [List.get_eq_getElem, hfi] using hg

/-- In a list with pairwise-distinct ids, a present id is counted exactly
once. -/
theorem countP_id_one {ps : List Profile} {r : String}
    (hu : IdsUnique ps) (hex : ∃ p ∈ ps, p.id = r) :
    ps.countP (fun p => p.id == r) = 1 := by
  induction ps with
  | nil => simp at hex
  | cons a t ih =>
    obtain ⟨ha, ht⟩ := List.pairwise_cons.mp hu
    obtain ⟨p, hp, hpr⟩ := hex
    rcases List.mem_cons.mp hp with hpa | hpt
    · subst hpa
      rw [List.countP_cons_of_pos _ _ (by simpa using hpr)]
      have hzero : t.countP (fun q => q.id == r) = 0 := by
        rw [List.countP_eq_zero]
        intro b hb
        have : p.id ≠ b.id := ha b hb
        simp only [beq_iff_eq]
        rw [← hpr]
        exact fun hbr => this hbr.symm
      rw [hzero]
    · have haneg : ¬((fun q : Profile => q.id == r) a) = true := by
        simp only [beq_iff_eq]
        intro har
        exact (ha p hpt) (by rw [har, hpr])
      rw [List.countP_cons_of_neg (fun q : Profile => q.id == r) t haneg]
      exact ih ht ⟨p, hpt, hpr⟩

/-- Overwriting a slot with a profile of the same id leaves the id
sequence unchanged. -/
theorem map_id_set {ps : List Profile} {i : Nat} {a : Profile}
    (hi : i < ps.length) (ha : a.id = (ps.get ⟨i, hi⟩).id) :
    (ps.set i a).map Profile.id = ps.map Profile.id := by
  apply List.ext_getElem
  · simp
  · intro j h1 h2
    rw [List.getElem_map, List.getElem_map, List.getElem_set]
    by_cases hij : i = j
    · subst hij
      simpa [List.get_eq_getElem] using ha
    · simp [hij]

/-- `IdsUnique` only looks at the id sequence. -/
theorem idsUnique_iff_map {ps : List Profile} :
    IdsUnique ps ↔ (ps.map Profile.id).Pairwise (fun a b => a ≠ b) := by
  unfold IdsUnique
  rw [List.pairwise_map]

/-- The written element is a member of the updated list. -/
theorem mem_set_self {ps : List Profile} {i : Nat} {a : Profile}
    (hi : i < ps.length) : a ∈ ps.set i a := by
  rw [List.mem_iff_getElem]
  refine ⟨i, ?_, ?_⟩
  · rw [List.length_set]
    exact hi
  · rw [List.getElem_set]
    simp

/-! ## Preservation of the invariant -/

/-- A successful or failed `upsert_profile` call preserves the combined
invariant, provided the generated uuid is non-empty (as `uuid.uuid4()`
always is). -/
theorem upsert_preserves_profilesOK {st : AppData} {input : ProfileInput}
    {newId now : String} {u : Option String}
    (hid : newId ≠ "") (hOK : ProfilesOK st.profiles) :
    ProfilesOK (handle_upsert_profile st input newId now u).state.profiles := by
  obtain ⟨hN, hI, hE⟩ := hOK
  cases hb : falsyStr input.name with
  | true =>
    rw [upsert_eq_of_missing hb]
    exact ⟨hN, hI, hE⟩
  | false =>
    cases hf : st.profiles.find? (collisionPred (input.name.getD "") input.id) with
    | some q =>
      rw [upsert_eq_of_collision hb hf]
      exact ⟨hN, hI, hE⟩
    | none =>
      have hforce := @collision_clear_name_forces_id st.profiles input newId hf hE
      have hrne : resolvedId input newId ≠ "" := resolvedId_ne_empty hid
      cases hfi : st.profiles.findIdx? (fun p => p.id == resolvedId input newId) with
      | none =>
        rw [upsert_eq_of_ok_append hb hf hfi]
        show ProfilesOK (st.profiles ++ [storedProfile input newId now u])
        have hfresh : ∀ p ∈ st.profiles, p.id ≠ resolvedId input newId := by
          intro p hp
          have hx := List.findIdx?_eq_none_iff.mp hfi p hp
          simpa using hx
        refine ⟨?_, ?_, ?_⟩
        · unfold NamesUnique
          rw [List.pairwise_append]
          refine ⟨hN, List.pairwise_singleton _ _, ?_⟩
          intro p hp b hbmem
          have hb2 : b = storedProfile input newId now u := List.mem_singleton.mp hbmem
          subst hb2
          intro hcon
          have hpid := hforce p hp (by simpa [storedProfile] using hcon)
          exact hfresh p hp hpid
        · unfold IdsUnique
          rw [List.pairwise_append]
          refine ⟨hI, List.pairwise_singleton _ _, ?_⟩
          intro p hp b hbmem
          have hb2 : b = storedProfile input newId now u := List.mem_singleton.mp hbmem
          subst hb2
          show p.id ≠ resolvedId input newId
          exact hfresh p hp
        · intro p hp
          rcases List.mem_append.mp hp with h | h
          · exact hE p h
          · have hb2 : p = storedProfile input newId now u := List.mem_singleton.mp h
            rw [hb2]
            show resolvedId input newId ≠ ""
            exact hrne
      | some i =>
        rw [upsert_eq_of_ok_set hb hf hfi]
        show ProfilesOK (st.profiles.set i (storedProfile input newId now u))
        obtain ⟨hlt, hpi⟩ := findIdx?_some_spec hfi
        have hpi2 : (st.profiles.get ⟨i, hlt⟩).id = resolvedId input newId := by
          simpa using hpi
        have hmap : (st.profiles.set i (storedProfile input newId now u)).map Profile.id
            = st.profiles.map Profile.id := map_id_set hlt hpi2.symm
        have hIg := List.pairwise_iff_getElem.mp hI
        have hNg := List.pairwise_iff_getElem.mp hN
        have hidne : ∀ j (hj : j < st.profiles.length), j ≠ i →
            (st.profiles.get ⟨j, hj⟩).id ≠ (st.profiles.get ⟨i, hlt⟩).id := by
          intro j hj hji
          rcases Nat.lt_or_ge j i with hlt2 | hge
          · have hx := hIg j i hj hlt hlt2
            simpa [List.get_eq_getElem] using hx
          · have hlt3 : i < j := Nat.lt_of_le_of_ne hge (fun e => hji e.symm)
            have hx := hIg i j hlt hj hlt3
            simpa [List.get_eq_getElem] using (Ne.symm hx)
        refine ⟨?_, ?_, ?_⟩
        · unfold NamesUnique
          rw [List.pairwise_iff_getElem]
          intro j k hj hk hjk
          rw [List.length_set] at hj hk
          rw [List.getElem_set, List.getElem_set]
          by_cases hij : i = j
          · subst hij
            have hik : i ≠ k := Nat.ne_of_lt hjk
            rw [if_pos rfl, if_neg hik]
            intro hcon
            have hkmem : st.profiles.get ⟨k, hk⟩ ∈ st.profiles := List.get_mem _ _ _
            have hfk := hforce _ hkmem
              (by simpa [List.get_eq_getElem, storedProfile] using hcon.symm)
            have hfk2 : (st.profiles.get ⟨k, hk⟩).id = resolvedId input newId := by
              simpa [List.get_eq_getElem] using hfk
            exact hidne k hk (fun e => hik e.symm) (hfk2.trans hpi2.symm)
          · by_cases hik : i = k
            · subst hik
              rw [if_neg hij, if_pos rfl]
              intro hcon
              have hjmem : st.profiles.get ⟨j, hj⟩ ∈ st.profiles := List.get_mem _ _ _
              have hfj := hforce _ hjmem
                (by simpa [List.get_eq_getElem, storedProfile] using hcon)
              have hfj2 : (st.profiles.get ⟨j, hj⟩).id = resolvedId input newId := by
                simpa [List.get_eq_getElem] using hfj
              exact hidne j hj (fun e => hij e.symm) (hfj2.trans hpi2.symm)
            · rw [if_neg hij, if_neg hik]
              exact hNg j k hj hk hjk
        · rw [idsUnique_iff_map, hmap, ← idsUnique_iff_map]
          exact hI
        · intro p hp
          rcases List.mem_or_eq_of_mem_set hp with h | h
          · exact hE p h
          · rw [h]
            show resolvedId input newId ≠ ""
            exact hrne

/-- `delete_profile` keeps a sublist, hence preserves the invariant. -/
theorem delete_preserves_profilesOK {st : AppData} {pid : Option String}
    (hOK : ProfilesOK st.profiles) :
    ProfilesOK (handle_delete_profile st pid).1.profiles := by
  obtain ⟨hN, hI, hE⟩ := hOK
  show ProfilesOK (st.profiles.filter (fun p => idDiffers p.id pid))
  have hsub : (st.profiles.filter (fun p => idDiffers p.id pid)).Sublist st.profiles :=
    List.filter_sublist _
  exact ⟨List.Pairwise.sublist hsub hN, List.Pairwise.sublist hsub hI,
    fun p hp => hE p (List.mem_filter.mp hp).1⟩

/-- Every reachable document satisfies the combined invariant. -/
theorem reachable_profilesOK {st : AppData} (h : Reachable st) :
    ProfilesOK st.profiles := by
  induction h with
  | init =>
    refine ⟨List.Pairwise.nil, List.Pairwise.nil, ?_⟩
    intro p hp
    exact absurd hp (List.not_mem_nil p)
  | upsert h input newId now u hid ih => exact upsert_preserves_profilesOK hid ih
  | delete h pid ih => exact delete_preserves_profilesOK ih
  | setKey h k ih => exact ih

/-! ## More shared helpers -/

/-- On success the stamped profile is a member of the resulting list. -/
theorem upsert_ok_stored_mem {st : AppData} {input : ProfileInput}
    {newId now : String} {u : Option String}
    (hb : falsyStr input.name = false)
    (hf : st.profiles.find? (collisionPred (input.name.getD "") input.id) = none) :
    storedProfile input newId now u ∈
      (handle_upsert_profile st input newId now u).state.profiles := by
  cases hfi : st.profiles.findIdx? (fun p => p.id == resolvedId input newId) with
  | none =>
    rw [upsert_eq_of_ok_append hb hf hfi]
    show storedProfile input newId now u ∈ st.profiles ++ [storedProfile input newId now u]
    exact List.mem_append.mpr (Or.inr (List.mem_singleton.mpr rfl))
  | some i =>
    rw [upsert_eq_of_ok_set hb hf hfi]
    obtain ⟨hlt, _⟩ := findIdx?_some_spec hfi
    exact mem_set_self hlt

/-- Two distinct positions of an id-unique list carry distinct ids. -/
theorem idsUnique_getElem_ne {ps : List Profile} (hI : IdsUnique ps)
    {j k : Nat} (hj : j < ps.length) (hk : k < ps.length) (hne : j ≠ k) :
    (ps.get ⟨j, hj⟩).id ≠ (ps.get ⟨k, hk⟩).id := by
  have hIg := List.pairwise_iff_getElem.mp hI
  rcases Nat.lt_or_ge j k with h1 | h2
  · have hx := hIg j k hj hk h1
    simpa [List.get_eq_getElem] using hx
  · have h3 : k < j := Nat.lt_of_le_of_ne h2 (fun e => hne e.symm)
    have hx := hIg k j hk hj h3
    simpa [List.get_eq_getElem] using (Ne.symm hx)

/-! ## The claims -/

/-- C1: Case-insensitive name uniqueness is an invariant of the profile
store: starting from the initial empty document, after every sequence of
`upsert_profile`, `delete_profile` and `set_gemini_key` operations
(failed upserts included), no two profiles of the stored list have names
equal under case-insensitive comparison. -/
theorem profile_names_caseInsensitive_unique (st : AppData) (h : Reachable st) :
    st.profiles.Pairwise (fun p q => pyLower p.name ≠ pyLower q.name) :=
  (reachable_profilesOK h).1

/-- Witness for C1 at a concrete two-step reachable state. -/
theorem profile_names_caseInsensitive_unique_witness :
    (handle_upsert_profile (handle_delete_profile initialData (some "a")).1
        (ProfileInput.mk none (some "Kitchen") []) "id-1" "t1" none).state.profiles.Pairwise
      (fun p q => pyLower p.name ≠ pyLower q.name) :=
  profile_names_caseInsensitive_unique _
    (Reachable.upsert (Reachable.delete Reachable.init (some "a"))
      (ProfileInput.mk none (some "Kitchen") []) "id-1" "t1" none (by decide))

/-- C5: `upsert_profile` validates the required name field: the
missing-name error is raised exactly for inputs whose name is absent,
`None`, or empty. -/
theorem upsert_missing_name_validation (st : AppData) (input : ProfileInput)
    (newId now : String) (u : Option String) :
    (handle_upsert_profile st input newId now u).result = .error .missingName ↔
      falsyStr input.name = true := by
  constructor
  · intro h
    cases hb : falsyStr input.name with
    | true => rfl
    | false =>
      cases hf : st.profiles.find? (collisionPred (input.name.getD "") input.id) with
      | some q =>
        rw [upsert_eq_of_collision hb hf] at h
        exact absurd h (by simp)
      | none =>
        rw [@upsert_result_of_ok st input newId now u hb hf] at h
        exact absurd h (by simp)
  · intro h
    rw [upsert_eq_of_missing h]

/-- C6: `delete_profile` deletes by id: the resulting list is exactly the
previous profiles whose id differs from `profile_id`, in order; the key
is untouched; when nothing matches, the document is unchanged and
nothing is persisted. -/
theorem delete_profile_by_id (st : AppData) (profile_id : Option String) :
    (handle_delete_profile st profile_id).1.profiles =
        st.profiles.filter (fun p => idDiffers p.id profile_id) ∧
    (handle_delete_profile st profile_id).1.gemini_api_key = st.gemini_api_key ∧
    ((∀ p ∈ st.profiles, idDiffers p.id profile_id = true) →
      (handle_delete_profile st profile_id).1 = st ∧
      (handle_delete_profile st profile_id).2 = false) := by
  refine ⟨rfl, rfl, fun hall => ?_⟩
  have hfix : st.profiles.filter (fun p => idDiffers p.id profile_id) = st.profiles :=
    List.filter_eq_self.mpr hall
  constructor
  · show ({ st with profiles := st.profiles.filter (fun p => idDiffers p.id profile_id) } : AppData) = st
    rw [hfix]
  · show decide ((st.profiles.filter (fun p => idDiffers p.id profile_id)).length
        < st.profiles.length) = false
    rw [hfix]
    simp

/-- Witness for C6 at a concrete state and id. -/
theorem delete_profile_by_id_witness :
    ((handle_delete_profile initialData (some "z")).1.profiles =
        initialData.profiles.filter (fun p => idDiffers p.id (some "z")) ∧
     (handle_delete_profile initialData (some "z")).1.gemini_api_key =
        initialData.gemini_api_key ∧
     ((∀ p ∈ initialData.profiles, idDiffers p.id (some "z") = true) →
       (handle_delete_profile initialData (some "z")).1 = initialData ∧
       (handle_delete_profile initialData (some "z")).2 = false)) :=
  delete_profile_by_id initialData (some "z")

/-- C9: `upsert_profile` is atomic on error: whenever it raises, the
stored document — key and profile list alike — is exactly what it was,
and nothing was written to storage. -/
theorem upsert_atomic_on_error (st : AppData) (input : ProfileInput)
    (newId now : String) (u : Option String) (e : SvcError)
    (h : (handle_upsert_profile st input newId now u).result = .error e) :
    (handle_upsert_profile st input newId now u).state = st ∧
    (handle_upsert_profile st input newId now u).saved = false := by
  cases hb : falsyStr input.name with
  | true =>
    rw [upsert_eq_of_missing hb]
    exact ⟨rfl, rfl⟩
  | false =>
    cases hf : st.profiles.find? (collisionPred (input.name.getD "") input.id) with
    | some q =>
      rw [upsert_eq_of_collision hb hf]
      exact ⟨rfl, rfl⟩
    | none =>
      rw [@upsert_result_of_ok st input newId now u hb hf] at h
      exact absurd h (by simp)

/-- Witness for C9 at a concrete erroring call. -/
theorem upsert_atomic_on_error_witness :
    (handle_upsert_profile initialData (ProfileInput.mk none none []) "id-1" "t" none).result =
      Except.error SvcError.missingName ∧
    ((handle_upsert_profile initialData (ProfileInput.mk none none []) "id-1" "t" none).state =
        initialData ∧
     (handle_upsert_profile initialData (ProfileInput.mk none none []) "id-1" "t" none).saved =
        false) :=
  ⟨rfl, upsert_atomic_on_error initialData (ProfileInput.mk none none []) "id-1" "t" none
    SvcError.missingName rfl⟩

/-- C10: `set_gemini_key` maps the empty string to `None`, stores any
other value unchanged, and never touches the profiles list. -/
theorem set_gemini_key_empty_clears (st : AppData) (k : Option String) :
    (handle_set_gemini_key st k).1.gemini_api_key = (if k = some "" then none else k) ∧
    (handle_set_gemini_key st k).1.profiles = st.profiles := by
  constructor
  · show (if k == some "" then none else k) = (if k = some "" then none else k)
    by_cases hk : k = some ""
    · simp [hk]
    · rw [if_neg hk]
      rw [if_neg ?hne]
      case hne =>
        simp only [beq_iff_eq]
        exact hk
  · rfl

/-- C2: for a non-empty input name, the call raises an error exactly when
some stored profile whose id differs from the input id carries the same
name case-insensitively; and when it raises for this reason, no profile
is created or updated. -/
theorem upsert_name_collision_check (st : AppData) (input : ProfileInput)
    (newId now : String) (u : Option String)
    (hname : falsyStr input.name = false) :
    ((∃ e, (handle_upsert_profile st input newId now u).result = .error e) ↔
      ∃ p ∈ st.profiles, pyLower p.name = pyLower (input.name.getD "") ∧
        idDiffers p.id input.id = true) ∧
    (∀ e, (handle_upsert_profile st input newId now u).result = .error e →
      (handle_upsert_profile st input newId now u).state = st ∧
      (handle_upsert_profile st input newId now u).saved = false) := by
  cases hf : st.profiles.find? (collisionPred (input.name.getD "") input.id) with
  | some q =>
    rw [upsert_eq_of_collision hname hf]
    refine ⟨⟨fun _ => ?_, fun _ => ?_⟩, fun e he => ⟨rfl, rfl⟩⟩
    · have hq := List.find?_some hf
      have hqm := List.mem_of_find?_eq_some hf
      exact ⟨q, hqm, collisionPred_eq_true_iff.mp hq⟩
    · exact ⟨.nameExists (input.name.getD ""), rfl⟩
  | none =>
    have hres := @upsert_result_of_ok st input newId now u hname hf
    refine ⟨⟨fun hex => ?_, fun hex => ?_⟩, fun e he => ?_⟩
    · obtain ⟨e, he⟩ := hex
      rw [hres] at he
      exact absurd he (by simp)
    · obtain ⟨p, hp, hn, hd⟩ := hex
      have hnot := List.find?_eq_none.mp hf p hp
      exact absurd (collisionPred_eq_true_iff.mpr ⟨hn, hd⟩) hnot
    · rw [hres] at he
      exact absurd he (by simp)

/-- Witness for C2 at the empty document (no collision, no error). -/
theorem upsert_name_collision_check_witness :
    falsyStr (ProfileInput.mk none (some "A") []).name = false ∧
    (((∃ e, (handle_upsert_profile initialData (ProfileInput.mk none (some "A") [])
          "id-1" "t" none).result = .error e) ↔
        ∃ p ∈ initialData.profiles,
          pyLower p.name = pyLower ((ProfileInput.mk none (some "A") []).name.getD "") ∧
            idDiffers p.id (ProfileInput.mk none (some "A") []).id = true) ∧
      (∀ e, (handle_upsert_profile initialData (ProfileInput.mk none (some "A") [])
          "id-1" "t" none).result = .error e →
        (handle_upsert_profile initialData (ProfileInput.mk none (some "A") [])
          "id-1" "t" none).state = initialData ∧
        (handle_upsert_profile initialData (ProfileInput.mk none (some "A") [])
          "id-1" "t" none).saved = false)) :=
  ⟨by decide, upsert_name_collision_check initialData (ProfileInput.mk none (some "A") [])
    "id-1" "t" none (by decide)⟩

/-- C3: id assignment: a falsy input id is replaced by the freshly
generated uuid, a non-empty input id is kept, and the returned value is
the stored profile's id. -/
theorem upsert_id_assignment (st : AppData) (input : ProfileInput)
    (newId now : String) (u : Option String) (r : String)
    (h : (handle_upsert_profile st input newId now u).result = .ok r) :
    r = resolvedId input newId ∧
    (falsyStr input.id = true → r = newId) ∧
    (∀ s, input.id = some s → s ≠ "" → r = s) ∧
    ∃ p ∈ (handle_upsert_profile st input newId now u).state.profiles, p.id = r := by
  obtain ⟨hb, hf, hr⟩ := upsert_ok_inv h
  refine ⟨hr, ?_, ?_, ?_⟩
  · intro hfalsy
    rw [hr]
    unfold resolvedId
    rw [hfalsy]
    simp
  · intro s hs hsne
    rw [hr]
    unfold resolvedId
    have hfb : falsyStr input.id = false := by
      rw [hs]
      exact beq_eq_false_iff_ne.mpr hsne
    rw [hfb, hs]
    simp
  · refine ⟨storedProfile input newId now u, upsert_ok_stored_mem hb hf, ?_⟩
    rw [hr]
    rfl

/-- Witness for C3 at a successful create. -/
theorem upsert_id_assignment_witness :
    (handle_upsert_profile initialData (ProfileInput.mk none (some "A") [])
        "id-1" "t" none).result = Except.ok "id-1" ∧
    ("id-1" = resolvedId (ProfileInput.mk none (some "A") []) "id-1" ∧
     (falsyStr (ProfileInput.mk none (some "A") []).id = true → "id-1" = "id-1") ∧
     (∀ s, (ProfileInput.mk none (some "A") []).id = some s → s ≠ "" → "id-1" = s) ∧
     ∃ p ∈ (handle_upsert_profile initialData (ProfileInput.mk none (some "A") [])
        "id-1" "t" none).state.profiles, p.id = "id-1") :=
  ⟨rfl, upsert_id_assignment initialData (ProfileInput.mk none (some "A") [])
    "id-1" "t" none "id-1" rfl⟩

/-- C4: audit-field stamping: every successfully stored profile carries
`last_modified` equal to the call's UTC timestamp, `schema_version`
equal to `PROFILE_SCHEMA_VERSION`, and `modified_by` equal to the
calling user's name (or `none` without user context / failed lookup). -/
theorem upsert_audit_stamping (st : AppData) (input : ProfileInput)
    (newId now : String) (u : Option String) (r : String)
    (h : (handle_upsert_profile st input newId now u).result = .ok r) :
    ∃ p ∈ (handle_upsert_profile st input newId now u).state.profiles,
      p.id = r ∧ p.last_modified = now ∧
      p.schema_version = PROFILE_SCHEMA_VERSION ∧ p.modified_by = u := by
  obtain ⟨hb, hf, hr⟩ := upsert_ok_inv h
  refine ⟨storedProfile input newId now u, upsert_ok_stored_mem hb hf, ?_, rfl, rfl, rfl⟩
  rw [hr]
  rfl

/-- Witness for C4 at a successful create. -/
theorem upsert_audit_stamping_witness :
    (handle_upsert_profile initialData (ProfileInput.mk none (some "A") [])
        "id-1" "t" none).result = Except.ok "id-1" ∧
    ∃ p ∈ (handle_upsert_profile initialData (ProfileInput.mk none (some "A") [])
        "id-1" "t" none).state.profiles,
      p.id = "id-1" ∧ p.last_modified = "t" ∧
      p.schema_version = PROFILE_SCHEMA_VERSION ∧ p.modified_by = none :=
  ⟨rfl, upsert_audit_stamping initialData (ProfileInput.mk none (some "A") [])
    "id-1" "t" none "id-1" rfl⟩

/-- C7: create/read round trip: from a reachable state, after a
successful upsert returning id `r` for a profile named `n`, `get_config`
returns a profiles list containing exactly one profile with id `r`, and
its name is `n`. -/
theorem upsert_get_config_roundtrip (st : AppData) (h : Reachable st)
    (input : ProfileInput) (newId now : String) (u : Option String)
    (r n : String) (hn : input.name = some n)
    (hok : (handle_upsert_profile st input newId now u).result = .ok r) :
    ((handle_get_config (handle_upsert_profile st input newId now u).state).2.countP
        (fun p => p.id == r) = 1) ∧
    (∀ p ∈ (handle_get_config (handle_upsert_profile st input newId now u).state).2,
      p.id = r → p.name = n) := by
  obtain ⟨hb, hf, hr⟩ := upsert_ok_inv hok
  obtain ⟨hN, hI, hE⟩ := reachable_profilesOK h
  have hstn : (storedProfile input newId now u).name = n := by
    show input.name.getD "" = n
    rw [hn]
    rfl
  have hstid : (storedProfile input newId now u).id = r := by
    rw [hr]
    rfl
  cases hfi : st.profiles.findIdx? (fun p => p.id == resolvedId input newId) with
  | none =>
    rw [upsert_eq_of_ok_append hb hf hfi]
    have hfresh : ∀ p ∈ st.profiles, p.id ≠ resolvedId input newId := by
      intro p hp
      have hx := List.findIdx?_eq_none_iff.mp hfi p hp
      simpa using hx
    constructor
    · show (st.profiles ++ [storedProfile input newId now u]).countP
        (fun p => p.id == r) = 1
      rw [List.countP_append]
      have h0 : st.profiles.countP (fun p => p.id == r) = 0 := by
        rw [List.countP_eq_zero]
        intro p hp
        simp only [beq_iff_eq]
        intro hpr
        exact hfresh p hp (by rw [← hr]; exact hpr)
      have h1 : ([storedProfile input newId now u] : List Profile).countP
          (fun p => p.id == r) = 1 := by
        simp [hstid]
      rw [h0, h1]
    · intro p hp hpr
      rcases List.mem_append.mp hp with hmem | hmem
      · exact absurd (hr ▸ hpr) (hfresh p hmem)
      · have hpe : p = storedProfile input newId now u := List.mem_singleton.mp hmem
        rw [hpe, hstn]
  | some i =>
    rw [upsert_eq_of_ok_set hb hf hfi]
    obtain ⟨hlt, hpi⟩ := findIdx?_some_spec hfi
    have hpi2 : (st.profiles.get ⟨i, hlt⟩).id = resolvedId input newId := by
      simpa using hpi
    have hmap : (st.profiles.set i (storedProfile input newId now u)).map Profile.id
        = st.profiles.map Profile.id := map_id_set hlt hpi2.symm
    have hI2 : IdsUnique (st.profiles.set i (storedProfile input newId now u)) := by
      rw [idsUnique_iff_map, hmap, ← idsUnique_iff_map]
      exact hI
    constructor
    · show (st.profiles.set i (storedProfile input newId now u)).countP
        (fun p => p.id == r) = 1
      exact countP_id_one hI2 ⟨storedProfile input newId now u, mem_set_self hlt, hstid⟩
    · intro p hp hpr
      have hp2 : p ∈ st.profiles.set i (storedProfile input newId now u) := hp
      obtain ⟨j, hj, hpj⟩ := List.mem_iff_getElem.mp hp2
      have hj2 : j < st.profiles.length := by
        simpa [List.length_set] using hj
      by_cases hij : i = j
      · subst hij
        have hgi : (st.profiles.set i (storedProfile input newId now u))[i] =
            storedProfile input newId now u := by
          rw [List.getElem_set]
          simp
        rw [hgi] at hpj
        rw [← hpj, hstn]
      · have hgj : (st.profiles.set i (storedProfile input newId now u))[j] =
            st.profiles[j] := by
          rw [List.getElem_set]
          simp [hij]
        rw [hgj] at hpj
        have hne2 : (st.profiles.get ⟨j, hj2⟩).id ≠ (st.profiles.get ⟨i, hlt⟩).id :=
          idsUnique_getElem_ne hI hj2 hlt (fun e => hij e.symm)
        exfalso
        apply hne2
        have hpi3 := hpi2
        rw [List.get_eq_getElem] at hpi3
        rw [List.get_eq_getElem, List.get_eq_getElem]
        rw [hpj, hpr, hr, hpi3]

/-- Witness for C7 at a concrete successful create from the empty
document. -/
theorem upsert_get_config_roundtrip_witness :
    ((handle_get_config (handle_upsert_profile initialData
          (ProfileInput.mk none (some "A") []) "id-1" "t" none).state).2.countP
        (fun p => p.id == "id-1") = 1) ∧
    (∀ p ∈ (handle_get_config (handle_upsert_profile initialData
          (ProfileInput.mk none (some "A") []) "id-1" "t" none).state).2,
      p.id = "id-1" → p.name = "A") :=
  upsert_get_config_roundtrip initialData Reachable.init
    (ProfileInput.mk none (some "A") []) "id-1" "t" none "id-1" "A" rfl rfl

/-- C8 counterexample: at a document holding a profile with an empty
name, `check_profile_name("")` reports the name as unavailable, yet the
corresponding upsert raises the missing-name error, not the
name-collision error — so "available = false exactly when upsert would
raise the name-collision error" fails at this state. -/
theorem check_profile_name_claim_counterexample :
    handle_check_profile_name
        (AppData.mk none [Profile.mk "x" "" "t0" 1 none []]) "" none = false ∧
    (handle_upsert_profile (AppData.mk none [Profile.mk "x" "" "t0" 1 none []])
        (ProfileInput.mk none (some "") []) "id-1" "t1" none).result =
      Except.error SvcError.missingName := by
  constructor
  · rfl
  · rfl

/-- C8 (amended): for every state, every NON-EMPTY name and every
exclude id, `check_profile_name` answers `available = false` exactly
when `upsert_profile` on a profile with that name and that id would
raise the name-collision error. -/
theorem check_profile_name_agrees_upsert (st : AppData) (name : String)
    (hn : name ≠ "") (exclude_id : Option String) (rest : List (String × String))
    (newId now : String) (u : Option String) :
    handle_check_profile_name st name exclude_id = false ↔
      (handle_upsert_profile st (ProfileInput.mk exclude_id (some name) rest)
          newId now u).result = .error (.nameExists name) := by
  have hb : falsyStr (ProfileInput.mk exclude_id (some name) rest).name = false := by
    show (name == "") = false
    exact beq_eq_false_iff_ne.mpr hn
  cases hf : st.profiles.find? (collisionPred
      ((ProfileInput.mk exclude_id (some name) rest).name.getD "")
      (ProfileInput.mk exclude_id (some name) rest).id) with
  | some q =>
    rw [upsert_eq_of_collision hb hf]
    constructor
    · intro _
      rfl
    · intro _
      show (!(st.profiles.any (collisionPred name exclude_id))) = false
      have hany : st.profiles.any (collisionPred name exclude_id) = true :=
        List.any_eq_true.mpr ⟨q, List.mem_of_find?_eq_some hf, List.find?_some hf⟩
      rw [hany]
      rfl
  | none =>
    have hres := @upsert_result_of_ok st (ProfileInput.mk exclude_id (some name) rest)
      newId now u hb hf
    rw [hres]
    constructor
    · intro hchk
      exfalso
      have hany : st.profiles.any (collisionPred name exclude_id) = false := by
        cases hy : st.profiles.any (collisionPred name exclude_id) with
        | false => rfl
        | true =>
          obtain ⟨x, hx, hpx⟩ := List.any_eq_true.mp hy
          exact absurd hpx (List.find?_eq_none.mp hf x hx)
      rw [show handle_check_profile_name st name exclude_id =
        (!(st.profiles.any (collisionPred name exclude_id))) from rfl, hany] at hchk
      exact absurd hchk (by simp)
    · intro he
      exact absurd he (by simp)

/-- Witness for the amended C8 at the empty document with name "A". -/
theorem check_profile_name_agrees_upsert_witness :
    ("A" : String) ≠ "" ∧
    (handle_check_profile_name initialData "A" none = false ↔
      (handle_upsert_profile initialData (ProfileInput.mk none (some "A") [])
          "id-1" "t" none).result = Except.error (SvcError.nameExists "A")) :=
  ⟨by decide, check_profile_name_agrees_upsert initialData "A" (by decide) none []
    "id-1" "t" none⟩
